import Mathlib

/-!
Verification of the live-canvas collaborative drawing server.

The server (src/server.js) keeps an authoritative canvas state — a list of
strokes and a map of connected users — and processes inbound WebSocket
messages one at a time, mutating the state and emitting broadcasts.  We embed
that state and the message handler as pure Lean functions: the handler takes
the current state, the identity resolved for the sending socket (the result
of the `connectedClients.get(ws)` lookup, which may be absent), the color the
socket was assigned at connection time, the current clock value, and the
parsed message, and returns the new state together with the list of emitted
broadcasts.  Fresh uuid generation is modelled by a `nextId` counter carried
in the state.  The client-side mirror (src/public/canvas.js) and its
reconnection controller are embedded likewise.
-/

/-- A point on the canvas, as carried verbatim in drawing messages. -/
structure Point where
  x : Int
  y : Int
deriving DecidableEq

/-- A stroke record as built in the `draw-start` handler of src/server.js.
`userId` is the value of `connectedClients.get(ws)` at creation time, which
may be absent. -/
structure Stroke where
  id : Nat
  userId : Option Nat
  color : String
  width : Nat
  points : List Point
  timestamp : Nat
deriving DecidableEq

/-- A user record as built in the connection handler of src/server.js. -/
structure User where
  id : Nat
  socketId : Nat
  color : String
  cursor : Point
deriving DecidableEq

/-- The authoritative server state: `canvasState.strokes`,
`canvasState.users` (a JS Map in insertion order, modelled as a list with
unique ids), and a counter modelling the fresh-uuid generator. -/
structure ServerState where
  strokes : List Stroke
  users : List User
  nextId : Nat
deriving DecidableEq

/-- Parsed client-to-server messages, one constructor per recognized
`type` in the `switch` of src/server.js. -/
inductive ClientMsg where
  | drawStart (x y : Int) (color : String) (width : Nat)
  | drawContinue (strokeId : Nat) (x y : Int)
  | drawEnd (strokeId : Nat)
  | cursorMove (x y : Int)
  | clearCanvas
  | chatMessage (message : String) (timestamp : Nat)
  | userTyping (typing : Bool)
deriving DecidableEq

/-- Scope of an outbound emission: to every open client (including the
originator), or to every open client except the originating socket. -/
inductive Scope where
  | all
  | exceptSender
deriving DecidableEq

/-- Server-to-client messages. -/
inductive ServerMsg where
  | drawStart (s : Stroke)
  | drawContinue (strokeId : Nat) (x y : Int)
  | drawEnd (strokeId : Nat)
  | cursorMove (userId : Nat) (x y : Int) (color : String)
  | clearCanvas
  | chatMessage (id : Nat) (userId : Nat) (userColor : String)
      (message : String) (timestamp : Nat)
  | userTyping (userId : Nat) (typing : Bool)
  | canvasState (strokes : List Stroke) (users : List User)
  | userInfo (u : User)
  | userJoined (u : User)
  | userLeft (userId : Nat)
deriving DecidableEq

/-- `canvasState.users.get(uid)`: first user whose id matches. -/
def usersGet : List User → Nat → Option User
  | [], _ => none
  | u :: rest, uid => if u.id = uid then some u else usersGet rest uid

/-- `canvasState.users.set(u.id, u)`: replace in place if the key exists,
append otherwise (JS Map keeps insertion order on overwrite). -/
def usersSet (us : List User) (u : User) : List User :=
  if (usersGet us u.id).isSome then
    us.map (fun w => if w.id = u.id then u else w)
  else
    us ++ [u]

/-- `canvasState.users.delete(uid)`. -/
def usersDelete : List User → Nat → List User
  | [], _ => []
  | u :: rest, uid =>
      if u.id = uid then usersDelete rest uid
      else u :: usersDelete rest uid

/-- In-place mutation `cursorUser.cursor = p` of the user object stored in
the map: the entry for `uid` gets the new cursor, order unchanged. -/
def updateCursorUsers (us : List User) (uid : Nat) (p : Point) : List User :=
  us.map (fun w => if w.id = uid then { w with cursor := p } else w)

/-- The `draw-continue` search-and-mutate: find the first stroke with
`stroke.userId === userId && stroke.id === data.strokeId` and push the point
onto it; `none` when no stroke matches. -/
def continueStrokes : List Stroke → Option Nat → Nat → Point → Option (List Stroke)
  | [], _, _, _ => none
  | s :: rest, sender, sid, p =>
      if s.userId = sender ∧ s.id = sid then
        some ({ s with points := s.points ++ [p] } :: rest)
      else
        match continueStrokes rest sender sid p with
        | some rest' => some (s :: rest')
        | none => none

/-- The message handler of src/server.js, lines 109-245: one parsed message
processed against the state.  `sender` is the `connectedClients.get(ws)`
lookup for the originating socket, `userColor` the color assigned to that
socket at connection time, `now` the current clock.  Returns the new state
and the emitted broadcasts in order. -/
def processMessage (st : ServerState) (sender : Option Nat) (userColor : String)
    (now : Nat) : ClientMsg → ServerState × List (Scope × ServerMsg)
  | .drawStart x y color width =>
      let stroke : Stroke :=
        { id := st.nextId
          userId := sender
          color := if color = "" then userColor else color
          width := if width = 0 then 2 else width
          points := [⟨x, y⟩]
          timestamp := now }
      ({ st with strokes := st.strokes ++ [stroke], nextId := st.nextId + 1 },
       [(Scope.all, ServerMsg.drawStart stroke)])
  | .drawContinue sid x y =>
      match continueStrokes st.strokes sender sid ⟨x, y⟩ with
      | some strokes' =>
          ({ st with strokes := strokes' },
           [(Scope.all, ServerMsg.drawContinue sid x y)])
      | none => (st, [])
  | .drawEnd sid => (st, [(Scope.all, ServerMsg.drawEnd sid)])
  | .cursorMove x y =>
      match sender with
      | none => (st, [])
      | some uid =>
          match usersGet st.users uid with
          | none => (st, [])
          | some u0 =>
              ({ st with users := updateCursorUsers st.users uid ⟨x, y⟩ },
               [(Scope.exceptSender, ServerMsg.cursorMove uid x y u0.color)])
  | .clearCanvas =>
      ({ st with strokes := [] }, [(Scope.all, ServerMsg.clearCanvas)])
  | .chatMessage message ts =>
      match sender with
      | none => (st, [])
      | some uid =>
          match usersGet st.users uid with
          | none => (st, [])
          | some u0 =>
              if message ≠ "" ∧ message.trim ≠ "" then
                ({ st with nextId := st.nextId + 1 },
                 [(Scope.all, ServerMsg.chatMessage st.nextId uid u0.color
                     message.trim (if ts = 0 then now else ts))])
              else (st, [])
  | .userTyping typing =>
      match sender with
      | none => (st, [])
      | some uid => (st, [(Scope.exceptSender, ServerMsg.userTyping uid typing)])

/-- Result of the connection handler (src/server.js lines 68-106): the new
state, the created user record, the messages sent to the new client in
order, and the broadcast sent to everyone else. -/
structure ConnectResult where
  state : ServerState
  user : User
  toNewClient : List ServerMsg
  toOthers : List ServerMsg
deriving DecidableEq

/-- The `wss.on` connection handler: allocate a connection id and a user id,
register the user, then send the snapshot (taken after registration), the
user-info message, and broadcast user-joined to the others.  `color` is the
randomly drawn palette color. -/
def connect (st : ServerState) (color : String) : ConnectResult :=
  let connectionId := st.nextId
  let userId := st.nextId + 1
  let u : User := { id := userId, socketId := connectionId, color := color,
                    cursor := ⟨0, 0⟩ }
  let st' : ServerState :=
    { st with users := usersSet st.users u, nextId := st.nextId + 2 }
  { state := st'
    user := u
    toNewClient := [ServerMsg.canvasState st'.strokes st'.users,
                    ServerMsg.userInfo u]
    toOthers := [ServerMsg.userJoined u] }

/-- The `ws.on` close handler (src/server.js lines 248-262): if the socket
still resolves to a user id, delete the user and broadcast user-left. -/
def disconnect (st : ServerState) (sender : Option Nat) :
    ServerState × List (Scope × ServerMsg) :=
  match sender with
  | none => (st, [])
  | some uid =>
      ({ st with users := usersDelete st.users uid },
       [(Scope.all, ServerMsg.userLeft uid)])

/-- An inbound frame before dispatch: unparseable JSON (the `catch` branch),
a parsed envelope with an unrecognized `type` (the `default` branch), or a
recognized message. -/
inductive Inbound where
  | malformed
  | unrecognized (t : String)
  | known (m : ClientMsg)
deriving DecidableEq

/-- The full `ws.on` message handler including the try/catch and the switch
default: malformed and unrecognized frames are logged and dropped. -/
def handleRawMessage (st : ServerState) (sender : Option Nat)
    (userColor : String) (now : Nat) : Inbound → ServerState × List (Scope × ServerMsg)
  | .malformed => (st, [])
  | .unrecognized _ => (st, [])
  | .known m => processMessage st sender userColor now m

/-- Client-side mirror state (src/public/canvas.js): the local copy of the
stroke list and the connected-users map. -/
structure ClientState where
  canvasStrokes : List Stroke
  connectedUsers : List User
deriving DecidableEq

/-- `data.users.forEach(user => this.connectedUsers.set(user.id, user))`
applied to a freshly cleared map. -/
def rebuildUsers (users : List User) : List User :=
  users.foldl usersSet []

/-- `handleCanvasState` (src/public/canvas.js lines 219-232): replace the
local stroke list wholesale and rebuild the users map from the snapshot. -/
def handleCanvasState (cs : ClientState) (strokes : List Stroke)
    (users : List User) : ClientState :=
  { cs with canvasStrokes := strokes, connectedUsers := rebuildUsers users }

/-- `this.maxReconnectAttempts = 10`. -/
def maxReconnectAttempts : Nat := 10

/-- `this.reconnectDelay = 1000`. -/
def baseReconnectDelay : Nat := 1000

/-- Reconnection controller state: the attempt counter and whether the
terminal connection error has been surfaced to the user. -/
structure ReconnectController where
  reconnectAttempts : Nat
  errorShown : Bool
deriving DecidableEq

/-- `attemptReconnect` (src/public/canvas.js lines 75-89): below the cap,
increment the counter and schedule a retry after
`reconnectDelay * 2 ^ (reconnectAttempts - 1)` milliseconds; at the cap,
surface the connection error and schedule nothing. -/
def attemptReconnect (c : ReconnectController) : ReconnectController × Option Nat :=
  if c.reconnectAttempts < maxReconnectAttempts then
    let a := c.reconnectAttempts + 1
    ({ c with reconnectAttempts := a },
     some (baseReconnectDelay * 2 ^ (a - 1)))
  else
    ({ c with errorShown := true }, none)

/-- `socket.onopen` (src/public/canvas.js lines 44-48): reset the attempt
counter to zero. -/
def handleOpen (c : ReconnectController) : ReconnectController :=
  { c with reconnectAttempts := 0 }

/-! ## Helper lemmas -/

theorem continueStrokes_eq_none (l : List Stroke) (sender : Option Nat) (sid : Nat)
    (p : Point) (h : ∀ t ∈ l, ¬(t.userId = sender ∧ t.id = sid)) :
    continueStrokes l sender sid p = none := by
  induction l with
  | nil => rfl
  | cons s rest ih =>
      have h1 : ¬(s.userId = sender ∧ s.id = sid) := h s (by simp)
      have h2 : continueStrokes rest sender sid p = none :=
        ih (fun t ht => h t (by simp [ht]))
      simp [continueStrokes, h1, h2]

theorem continueStrokes_eq_append (pre : List Stroke) (s : Stroke) (post : List Stroke)
    (sender : Option Nat) (sid : Nat) (p : Point)
    (hs : s.userId = sender ∧ s.id = sid)
    (hpre : ∀ t ∈ pre, ¬(t.userId = sender ∧ t.id = sid)) :
    continueStrokes (pre ++ s :: post) sender sid p
      = some (pre ++ { s with points := s.points ++ [p] } :: post) := by
  induction pre with
  | nil => simp [continueStrokes, hs]
  | cons t rest ih =>
      have h1 : ¬(t.userId = sender ∧ t.id = sid) := hpre t (by simp)
      have h2 := ih (fun u hu => hpre u (by simp [hu]))
      simp [continueStrokes, h1, h2]

theorem usersGet_none_of_forall (us : List User) (uid : Nat)
    (h : ∀ w ∈ us, w.id ≠ uid) : usersGet us uid = none := by
  induction us with
  | nil => rfl
  | cons u rest ih =>
      have h1 : u.id ≠ uid := h u (by simp)
      have h2 := ih (fun w hw => h w (by simp [hw]))
      simp [usersGet, h1, h2]

theorem usersSet_of_fresh (us : List User) (u : User)
    (h : usersGet us u.id = none) : usersSet us u = us ++ [u] := by
  simp [usersSet, h]

theorem usersGet_append_self (us : List User) (u : User)
    (h : usersGet us u.id = none) : usersGet (us ++ [u]) u.id = some u := by
  induction us with
  | nil => simp [usersGet]
  | cons w rest ih =>
      by_cases hw : w.id = u.id
      · simp [usersGet, hw] at h
      · have h2 : usersGet rest u.id = none := by
          simp [usersGet, hw] at h
          exact h
        simp [usersGet, hw, ih h2]

theorem foldl_usersSet_eq (us : List User) : ∀ acc : List User,
    (us.map User.id).Nodup → (∀ w ∈ acc, ∀ v ∈ us, w.id ≠ v.id) →
    List.foldl usersSet acc us = acc ++ us := by
  induction us with
  | nil => intro acc _ _; simp
  | cons u rest ih =>
      intro acc hnd hdis
      have h1 : usersGet acc u.id = none :=
        usersGet_none_of_forall acc u.id (fun w hw => hdis w hw u (by simp))
      have hnd' : (rest.map User.id).Nodup := by
        simp only [List.map_cons, List.nodup_cons] at hnd
        exact hnd.2
      have hhead : u.id ∉ rest.map User.id := by
        simp only [List.map_cons, List.nodup_cons] at hnd
        exact hnd.1
      have hdis' : ∀ w ∈ acc ++ [u], ∀ v ∈ rest, w.id ≠ v.id := by
        intro w hw v hv
        rcases List.mem_append.mp hw with hl | hr
        · exact hdis w hl v (by simp [hv])
        · have hwu : w = u := by simpa using hr
          subst hwu
          intro hEq
          exact hhead (hEq ▸ List.mem_map_of_mem User.id hv)
      rw [List.foldl_cons, usersSet_of_fresh acc u h1, ih (acc ++ [u]) hnd' hdis']
      simp

theorem rebuildUsers_eq (us : List User) (hnd : (us.map User.id).Nodup) :
    rebuildUsers us = us := by
  unfold rebuildUsers
  rw [foldl_usersSet_eq us [] hnd (by simp)]
  simp

theorem usersDelete_id_ne (us : List User) (uid : Nat) :
    ∀ w ∈ usersDelete us uid, w.id ≠ uid := by
  induction us with
  | nil => intro w hw; simp [usersDelete] at hw
  | cons u rest ih =>
      intro w hw
      by_cases hu : u.id = uid
      · simp only [usersDelete, if_pos hu] at hw
        exact ih w hw
      · simp only [usersDelete, if_neg hu, List.mem_cons] at hw
        rcases hw with h | h
        · subst h; exact hu
        · exact ih w h

theorem mem_usersDelete_of_ne (us : List User) (uid : Nat) (w : User)
    (hw : w ∈ us) (hne : w.id ≠ uid) : w ∈ usersDelete us uid := by
  induction us with
  | nil => simp at hw
  | cons u rest ih =>
      rcases List.mem_cons.mp hw with h | h
      · subst h
        simp [usersDelete, if_neg hne]
      · by_cases hu : u.id = uid
        · simp only [usersDelete, if_pos hu]
          exact ih h
        · simp only [usersDelete, if_neg hu, List.mem_cons]
          exact Or.inr (ih h)

theorem usersGet_updateCursor (us : List User) (uid : Nat) (p : Point) (u0 : User)
    (h : usersGet us uid = some u0) :
    usersGet (updateCursorUsers us uid p) uid = some { u0 with cursor := p } := by
  induction us with
  | nil => simp [usersGet] at h
  | cons u rest ih =>
      by_cases hu : u.id = uid
      · simp only [usersGet, if_pos hu, Option.some.injEq] at h
        subst h
        simp [updateCursorUsers, usersGet, hu]
      · simp only [usersGet, if_neg hu] at h
        simp only [updateCursorUsers, List.map_cons, if_neg hu]
        simpa [usersGet, hu, updateCursorUsers] using ih h

/-! ## Claim theorems -/

/-- Claim C1 counterexample: take a state with one stroke (id 100) owned by
the registered session 1, and a second registered session 2.  The claim as
stated requires a draw-continue from session 2 naming stroke 100 to append
its point (the stroke exists and its owner is still registered), but the
handler leaves the state unchanged and emits no broadcast, because the
stroke's owner differs from the sender. -/
theorem C1_counterexample :
    (∃ t ∈ (⟨[⟨100, some 1, "a", 2, [⟨0, 0⟩], 0⟩],
             [⟨1, 0, "b", ⟨0, 0⟩⟩, ⟨2, 1, "c", ⟨0, 0⟩⟩], 200⟩ : ServerState).strokes,
        t.id = 100)
    ∧ (usersGet [⟨1, 0, "b", ⟨0, 0⟩⟩, ⟨2, 1, "c", ⟨0, 0⟩⟩] 1).isSome = true
    ∧ (usersGet [⟨1, 0, "b", ⟨0, 0⟩⟩, ⟨2, 1, "c", ⟨0, 0⟩⟩] 2).isSome = true
    ∧ processMessage
        ⟨[⟨100, some 1, "a", 2, [⟨0, 0⟩], 0⟩],
         [⟨1, 0, "b", ⟨0, 0⟩⟩, ⟨2, 1, "c", ⟨0, 0⟩⟩], 200⟩
        (some 2) "c" 0 (ClientMsg.drawContinue 100 5 5)
      = (⟨[⟨100, some 1, "a", 2, [⟨0, 0⟩], 0⟩],
          [⟨1, 0, "b", ⟨0, 0⟩⟩, ⟨2, 1, "c", ⟨0, 0⟩⟩], 200⟩, []) := by
  decide

/-- Claim C1 (amended): for every draw-continue message processed on behalf
of a session, the point is appended to the named stroke's points if a stroke
with that id exists whose owner is the very session the message is processed
for; otherwise (in particular when the stroke's owner is a different session,
or when the sending socket no longer resolves to a session) the operation is
a silent no-op with no state change and no broadcast. -/
theorem C1_drawContinue_owner_append (st : ServerState) (sender : Option Nat)
    (uc : String) (now : Nat) (sid : Nat) (x y : Int) :
    ((∀ t ∈ st.strokes, ¬(t.userId = sender ∧ t.id = sid)) →
        processMessage st sender uc now (ClientMsg.drawContinue sid x y) = (st, []))
    ∧ (∀ pre s post, st.strokes = pre ++ s :: post → s.userId = sender → s.id = sid →
        (∀ t ∈ pre, ¬(t.userId = sender ∧ t.id = sid)) →
        processMessage st sender uc now (ClientMsg.drawContinue sid x y)
          = ({ st with strokes := pre ++ { s with points := s.points ++ [⟨x, y⟩] } :: post },
             [(Scope.all, ServerMsg.drawContinue sid x y)])) := by
  constructor
  · intro h
    have hc : continueStrokes st.strokes sender sid ⟨x, y⟩ = none :=
      continueStrokes_eq_none st.strokes sender sid ⟨x, y⟩ h
    simp [processMessage, hc]
  · intro pre s post hsplit hown hid hpre
    have hc : continueStrokes st.strokes sender sid ⟨x, y⟩
        = some (pre ++ { s with points := s.points ++ [⟨x, y⟩] } :: post) := by
      rw [hsplit]
      exact continueStrokes_eq_append pre s post sender sid ⟨x, y⟩ ⟨hown, hid⟩ hpre
    simp [processMessage, hc]

/-- Claim C1 witness: the amended theorem applied at a concrete state where
the sender owns the named stroke, discharging every hypothesis. -/
theorem C1_drawContinue_owner_append_witness :
    processMessage ⟨[⟨100, some 1, "a", 2, [⟨0, 0⟩], 0⟩],
                    [⟨1, 0, "b", ⟨0, 0⟩⟩], 200⟩
        (some 1) "b" 7 (ClientMsg.drawContinue 100 5 6)
      = (⟨[⟨100, some 1, "a", 2, [⟨0, 0⟩, ⟨5, 6⟩], 0⟩],
          [⟨1, 0, "b", ⟨0, 0⟩⟩], 200⟩,
         [(Scope.all, ServerMsg.drawContinue 100 5 6)]) :=
  (C1_drawContinue_owner_append
    ⟨[⟨100, some 1, "a", 2, [⟨0, 0⟩], 0⟩], [⟨1, 0, "b", ⟨0, 0⟩⟩], 200⟩
    (some 1) "b" 7 100 5 6).2
    [] ⟨100, some 1, "a", 2, [⟨0, 0⟩], 0⟩ [] rfl rfl rfl (by decide)

/-- Claim C2: a stroke-begin (draw-start) from a registered session with a
truthy color and width appends exactly one new stroke whose points are the
singleton of the given point, whose color is the requested color, and whose
id is the freshly generated server-side id (distinct from every existing
stroke id); the stroke is broadcast as a draw-start event to all connected
sessions, the originator included. -/
theorem C2_drawStart_appends (st : ServerState) (u : Nat) (uc c : String)
    (w : Nat) (now : Nat) (x y : Int)
    (hreg : (usersGet st.users u).isSome = true)
    (hc : c ≠ "") (hw : w ≠ 0)
    (hfresh : ∀ t ∈ st.strokes, t.id < st.nextId) :
    processMessage st (some u) uc now (ClientMsg.drawStart x y c w)
      = ({ st with strokes := st.strokes ++ [⟨st.nextId, some u, c, w, [⟨x, y⟩], now⟩]
                   nextId := st.nextId + 1 },
         [(Scope.all, ServerMsg.drawStart ⟨st.nextId, some u, c, w, [⟨x, y⟩], now⟩)])
    ∧ ∀ t ∈ st.strokes, t.id ≠ st.nextId := by
  constructor
  · simp [processMessage, hc, hw]
  · intro t ht
    exact Nat.ne_of_lt (hfresh t ht)

/-- Claim C2 witness: the theorem applied at a concrete registered session
sending the spec scenario payload. -/
theorem C2_drawStart_appends_witness :
    processMessage ⟨[], [⟨1, 0, "b", ⟨0, 0⟩⟩], 50⟩ (some 1) "b" 9
        (ClientMsg.drawStart 10 10 "#FF0000" 3)
      = (⟨[⟨50, some 1, "#FF0000", 3, [⟨10, 10⟩], 9⟩], [⟨1, 0, "b", ⟨0, 0⟩⟩], 51⟩,
         [(Scope.all, ServerMsg.drawStart ⟨50, some 1, "#FF0000", 3, [⟨10, 10⟩], 9⟩)])
    ∧ ∀ t ∈ (⟨[], [⟨1, 0, "b", ⟨0, 0⟩⟩], 50⟩ : ServerState).strokes, t.id ≠ 50 :=
  C2_drawStart_appends ⟨[], [⟨1, 0, "b", ⟨0, 0⟩⟩], 50⟩ 1 "b" "#FF0000" 3 9 10 10
    (by decide) (by decide) (by decide) (by decide)

/-- Claim C3: processing a draw-end message leaves the canvas state (strokes
and users) entirely unchanged, and a draw-continue for the same strokeId
processed afterwards behaves exactly as it would have without the draw-end —
in particular, when processed on behalf of the stroke's owner it still
appends its point to that stroke. -/
theorem C3_drawEnd_pure (st : ServerState) (sender : Option Nat) (uc : String)
    (now : Nat) (sid : Nat) :
    (processMessage st sender uc now (ClientMsg.drawEnd sid)).1 = st
    ∧ (∀ (sender2 : Option Nat) (uc2 : String) (now2 : Nat) (x y : Int),
        processMessage (processMessage st sender uc now (ClientMsg.drawEnd sid)).1
            sender2 uc2 now2 (ClientMsg.drawContinue sid x y)
          = processMessage st sender2 uc2 now2 (ClientMsg.drawContinue sid x y))
    ∧ (∀ pre s post (x y : Int) (uc2 : String) (now2 : Nat),
        st.strokes = pre ++ s :: post → s.id = sid →
        (∀ t ∈ pre, ¬(t.userId = s.userId ∧ t.id = sid)) →
        (processMessage (processMessage st sender uc now (ClientMsg.drawEnd sid)).1
            s.userId uc2 now2 (ClientMsg.drawContinue sid x y)).1.strokes
          = pre ++ { s with points := s.points ++ [⟨x, y⟩] } :: post) := by
  refine ⟨rfl, fun _ _ _ _ _ => rfl, ?_⟩
  intro pre s post x y uc2 now2 hsplit hid hpre
  have hc : continueStrokes st.strokes s.userId sid ⟨x, y⟩
      = some (pre ++ { s with points := s.points ++ [⟨x, y⟩] } :: post) := by
    rw [hsplit]
    exact continueStrokes_eq_append pre s post s.userId sid ⟨x, y⟩ ⟨rfl, hid⟩ hpre
  simp [processMessage, hc]

/-- Claim C3 witness: the theorem applied at a concrete state; the
draw-continue processed after the draw-end appends the point. -/
theorem C3_drawEnd_pure_witness :
    (processMessage ⟨[⟨100, some 1, "a", 2, [⟨0, 0⟩], 0⟩], [⟨1, 0, "b", ⟨0, 0⟩⟩], 200⟩
        (some 1) "b" 3 (ClientMsg.drawEnd 100)).1
      = ⟨[⟨100, some 1, "a", 2, [⟨0, 0⟩], 0⟩], [⟨1, 0, "b", ⟨0, 0⟩⟩], 200⟩
    ∧ (processMessage (processMessage
          ⟨[⟨100, some 1, "a", 2, [⟨0, 0⟩], 0⟩], [⟨1, 0, "b", ⟨0, 0⟩⟩], 200⟩
          (some 1) "b" 3 (ClientMsg.drawEnd 100)).1
          (some 1) "b" 4 (ClientMsg.drawContinue 100 5 6)).1.strokes
      = [⟨100, some 1, "a", 2, [⟨0, 0⟩, ⟨5, 6⟩], 0⟩] :=
  ⟨(C3_drawEnd_pure ⟨[⟨100, some 1, "a", 2, [⟨0, 0⟩], 0⟩], [⟨1, 0, "b", ⟨0, 0⟩⟩], 200⟩
      (some 1) "b" 3 100).1,
   (C3_drawEnd_pure ⟨[⟨100, some 1, "a", 2, [⟨0, 0⟩], 0⟩], [⟨1, 0, "b", ⟨0, 0⟩⟩], 200⟩
      (some 1) "b" 3 100).2.2
     [] ⟨100, some 1, "a", 2, [⟨0, 0⟩], 0⟩ [] 5 6 "b" 4 rfl rfl (by decide)⟩

/-- Claim C4: a clear-canvas message processed when the stroke list is
already empty leaves the whole server state unchanged (strokes still empty,
users untouched) and still broadcasts the clear-canvas event to all
connected sessions; moreover clear is idempotent on state from any
starting state. -/
theorem C4_clear_idempotent (st : ServerState) (sender : Option Nat)
    (uc : String) (now : Nat) (h : st.strokes = []) :
    processMessage st sender uc now ClientMsg.clearCanvas
      = (st, [(Scope.all, ServerMsg.clearCanvas)])
    ∧ ∀ st2 : ServerState,
        (processMessage (processMessage st2 sender uc now ClientMsg.clearCanvas).1
            sender uc now ClientMsg.clearCanvas).1
          = (processMessage st2 sender uc now ClientMsg.clearCanvas).1 := by
  constructor
  · have hst : { st with strokes := ([] : List Stroke) } = st := by
      cases st with
      | mk s u n =>
          dsimp only at h
          subst h
          rfl
    show ({ st with strokes := [] }, [(Scope.all, ServerMsg.clearCanvas)])
        = (st, [(Scope.all, ServerMsg.clearCanvas)])
    rw [hst]
  · intro st2
    rfl

/-- Claim C4 witness: the theorem applied at a concrete state with an empty
stroke list. -/
theorem C4_clear_idempotent_witness :
    processMessage ⟨[], [⟨1, 0, "b", ⟨0, 0⟩⟩], 10⟩ (some 1) "b" 0 ClientMsg.clearCanvas
      = (⟨[], [⟨1, 0, "b", ⟨0, 0⟩⟩], 10⟩, [(Scope.all, ServerMsg.clearCanvas)])
    ∧ ∀ st2 : ServerState,
        (processMessage (processMessage st2 (some 1) "b" 0 ClientMsg.clearCanvas).1
            (some 1) "b" 0 ClientMsg.clearCanvas).1
          = (processMessage st2 (some 1) "b" 0 ClientMsg.clearCanvas).1 :=
  C4_clear_idempotent ⟨[], [⟨1, 0, "b", ⟨0, 0⟩⟩], 10⟩ (some 1) "b" 0 rfl

theorem connect_eq (st : ServerState) (color : String)
    (h : usersGet st.users (st.nextId + 1) = none) :
    connect st color
      = { state := ⟨st.strokes,
                    st.users ++ [⟨st.nextId + 1, st.nextId, color, ⟨0, 0⟩⟩],
                    st.nextId + 2⟩
          user := ⟨st.nextId + 1, st.nextId, color, ⟨0, 0⟩⟩
          toNewClient := [ServerMsg.canvasState st.strokes
                            (st.users ++ [⟨st.nextId + 1, st.nextId, color, ⟨0, 0⟩⟩]),
                          ServerMsg.userInfo ⟨st.nextId + 1, st.nextId, color, ⟨0, 0⟩⟩]
          toOthers := [ServerMsg.userJoined ⟨st.nextId + 1, st.nextId, color, ⟨0, 0⟩⟩] } := by
  have hset : usersSet st.users ⟨st.nextId + 1, st.nextId, color, ⟨0, 0⟩⟩
      = st.users ++ [⟨st.nextId + 1, st.nextId, color, ⟨0, 0⟩⟩] :=
    usersSet_of_fresh st.users ⟨st.nextId + 1, st.nextId, color, ⟨0, 0⟩⟩ h
  simp only [connect, hset]

/-- Claim C5: the snapshot sent to a freshly connecting client immediately
after connection accept is exactly the server's current stroke list and
users map at that moment — the users map including the newly registered
session — and the client's canvas-state handler replaces its local mirror
wholesale with that snapshot. -/
theorem C5_snapshot_complete (st : ServerState) (color : String) (cs : ClientState)
    (hnd : (st.users.map User.id).Nodup)
    (hfresh : ∀ w ∈ st.users, w.id < st.nextId) :
    (connect st color).toNewClient
      = [ServerMsg.canvasState (connect st color).state.strokes
           (connect st color).state.users,
         ServerMsg.userInfo (connect st color).user]
    ∧ (connect st color).state.strokes = st.strokes
    ∧ (connect st color).state.users = st.users ++ [(connect st color).user]
    ∧ usersGet (connect st color).state.users (connect st color).user.id
        = some (connect st color).user
    ∧ (handleCanvasState cs (connect st color).state.strokes
        (connect st color).state.users).canvasStrokes
        = (connect st color).state.strokes
    ∧ (handleCanvasState cs (connect st color).state.strokes
        (connect st color).state.users).connectedUsers
        = (connect st color).state.users := by
  have hgnone : usersGet st.users (st.nextId + 1) = none :=
    usersGet_none_of_forall st.users (st.nextId + 1)
      (fun w hw => by have := hfresh w hw; omega)
  rw [connect_eq st color hgnone]
  have hu : (st.nextId + 1) ∉ st.users.map User.id := by
    intro hmem
    rcases List.mem_map.mp hmem with ⟨w, hw, hwid⟩
    have := hfresh w hw
    omega
  have hnd2 : (((st.users ++ [(⟨st.nextId + 1, st.nextId, color, ⟨0, 0⟩⟩ : User)]).map
      User.id)).Nodup := by
    rw [List.map_append]
    refine List.Nodup.append hnd (by simp) ?_
    intro a ha hb
    simp only [List.map_cons, List.map_nil, List.mem_singleton] at hb
    subst hb
    exact hu ha
  refine ⟨rfl, rfl, rfl, ?_, rfl, ?_⟩
  · exact usersGet_append_self st.users ⟨st.nextId + 1, st.nextId, color, ⟨0, 0⟩⟩ hgnone
  · show rebuildUsers _ = _
    exact rebuildUsers_eq _ hnd2

/-- Claim C5 witness: the theorem applied at a concrete server state with
one existing stroke and one existing user. -/
theorem C5_snapshot_complete_witness :
    (connect ⟨[⟨7, some 1, "a", 2, [⟨0, 0⟩], 0⟩], [⟨1, 0, "b", ⟨0, 0⟩⟩], 50⟩ "#FF6B6B").toNewClient
      = [ServerMsg.canvasState
           (connect ⟨[⟨7, some 1, "a", 2, [⟨0, 0⟩], 0⟩], [⟨1, 0, "b", ⟨0, 0⟩⟩], 50⟩ "#FF6B6B").state.strokes
           (connect ⟨[⟨7, some 1, "a", 2, [⟨0, 0⟩], 0⟩], [⟨1, 0, "b", ⟨0, 0⟩⟩], 50⟩ "#FF6B6B").state.users,
         ServerMsg.userInfo
           (connect ⟨[⟨7, some 1, "a", 2, [⟨0, 0⟩], 0⟩], [⟨1, 0, "b", ⟨0, 0⟩⟩], 50⟩ "#FF6B6B").user]
    ∧ (connect ⟨[⟨7, some 1, "a", 2, [⟨0, 0⟩], 0⟩], [⟨1, 0, "b", ⟨0, 0⟩⟩], 50⟩ "#FF6B6B").state.strokes
        = [⟨7, some 1, "a", 2, [⟨0, 0⟩], 0⟩]
    ∧ (connect ⟨[⟨7, some 1, "a", 2, [⟨0, 0⟩], 0⟩], [⟨1, 0, "b", ⟨0, 0⟩⟩], 50⟩ "#FF6B6B").state.users
        = [⟨1, 0, "b", ⟨0, 0⟩⟩]
            ++ [(connect ⟨[⟨7, some 1, "a", 2, [⟨0, 0⟩], 0⟩], [⟨1, 0, "b", ⟨0, 0⟩⟩], 50⟩ "#FF6B6B").user]
    ∧ usersGet
        (connect ⟨[⟨7, some 1, "a", 2, [⟨0, 0⟩], 0⟩], [⟨1, 0, "b", ⟨0, 0⟩⟩], 50⟩ "#FF6B6B").state.users
        (connect ⟨[⟨7, some 1, "a", 2, [⟨0, 0⟩], 0⟩], [⟨1, 0, "b", ⟨0, 0⟩⟩], 50⟩ "#FF6B6B").user.id
        = some (connect ⟨[⟨7, some 1, "a", 2, [⟨0, 0⟩], 0⟩], [⟨1, 0, "b", ⟨0, 0⟩⟩], 50⟩ "#FF6B6B").user
    ∧ (handleCanvasState ⟨[], []⟩
        (connect ⟨[⟨7, some 1, "a", 2, [⟨0, 0⟩], 0⟩], [⟨1, 0, "b", ⟨0, 0⟩⟩], 50⟩ "#FF6B6B").state.strokes
        (connect ⟨[⟨7, some 1, "a", 2, [⟨0, 0⟩], 0⟩], [⟨1, 0, "b", ⟨0, 0⟩⟩], 50⟩ "#FF6B6B").state.users).canvasStrokes
        = (connect ⟨[⟨7, some 1, "a", 2, [⟨0, 0⟩], 0⟩], [⟨1, 0, "b", ⟨0, 0⟩⟩], 50⟩ "#FF6B6B").state.strokes
    ∧ (handleCanvasState ⟨[], []⟩
        (connect ⟨[⟨7, some 1, "a", 2, [⟨0, 0⟩], 0⟩], [⟨1, 0, "b", ⟨0, 0⟩⟩], 50⟩ "#FF6B6B").state.strokes
        (connect ⟨[⟨7, some 1, "a", 2, [⟨0, 0⟩], 0⟩], [⟨1, 0, "b", ⟨0, 0⟩⟩], 50⟩ "#FF6B6B").state.users).connectedUsers
        = (connect ⟨[⟨7, some 1, "a", 2, [⟨0, 0⟩], 0⟩], [⟨1, 0, "b", ⟨0, 0⟩⟩], 50⟩ "#FF6B6B").state.users :=
  C5_snapshot_complete ⟨[⟨7, some 1, "a", 2, [⟨0, 0⟩], 0⟩], [⟨1, 0, "b", ⟨0, 0⟩⟩], 50⟩
    "#FF6B6B" ⟨[], []⟩ (by decide) (by decide)

/-- Claim C6: when a session disconnects, the close handler removes its id
from the users map, broadcasts a user-left event naming that session, and
leaves the stroke list untouched — every stroke, including one begun but not
ended by the departing session, remains present with identical fields. -/
theorem C6_disconnect_preserves_strokes (st : ServerState) (u : Nat) :
    (disconnect st (some u)).1.strokes = st.strokes
    ∧ (disconnect st (some u)).1.users = usersDelete st.users u
    ∧ (disconnect st (some u)).2 = [(Scope.all, ServerMsg.userLeft u)]
    ∧ (∀ w ∈ (disconnect st (some u)).1.users, w.id ≠ u)
    ∧ (∀ w ∈ st.users, w.id ≠ u → w ∈ (disconnect st (some u)).1.users)
    ∧ ∀ s ∈ st.strokes, s ∈ (disconnect st (some u)).1.strokes := by
  refine ⟨rfl, rfl, rfl, ?_, ?_, ?_⟩
  · exact usersDelete_id_ne st.users u
  · intro w hw hne
    exact mem_usersDelete_of_ne st.users u w hw hne
  · intro s hs
    exact hs

/-- Claim C6 witness: the theorem applied at a concrete state where session
1 disconnects mid-stroke. -/
theorem C6_disconnect_preserves_strokes_witness :
    (disconnect ⟨[⟨7, some 1, "a", 2, [⟨0, 0⟩], 0⟩],
        [⟨1, 0, "b", ⟨0, 0⟩⟩, ⟨2, 1, "c", ⟨0, 0⟩⟩], 50⟩ (some 1)).1.strokes
      = [⟨7, some 1, "a", 2, [⟨0, 0⟩], 0⟩]
    ∧ (disconnect ⟨[⟨7, some 1, "a", 2, [⟨0, 0⟩], 0⟩],
        [⟨1, 0, "b", ⟨0, 0⟩⟩, ⟨2, 1, "c", ⟨0, 0⟩⟩], 50⟩ (some 1)).1.users
      = usersDelete [⟨1, 0, "b", ⟨0, 0⟩⟩, ⟨2, 1, "c", ⟨0, 0⟩⟩] 1
    ∧ (disconnect ⟨[⟨7, some 1, "a", 2, [⟨0, 0⟩], 0⟩],
        [⟨1, 0, "b", ⟨0, 0⟩⟩, ⟨2, 1, "c", ⟨0, 0⟩⟩], 50⟩ (some 1)).2
      = [(Scope.all, ServerMsg.userLeft 1)]
    ∧ (∀ w ∈ (disconnect ⟨[⟨7, some 1, "a", 2, [⟨0, 0⟩], 0⟩],
        [⟨1, 0, "b", ⟨0, 0⟩⟩, ⟨2, 1, "c", ⟨0, 0⟩⟩], 50⟩ (some 1)).1.users, w.id ≠ 1)
    ∧ (∀ w ∈ ([⟨1, 0, "b", ⟨0, 0⟩⟩, ⟨2, 1, "c", ⟨0, 0⟩⟩] : List User), w.id ≠ 1 →
        w ∈ (disconnect ⟨[⟨7, some 1, "a", 2, [⟨0, 0⟩], 0⟩],
          [⟨1, 0, "b", ⟨0, 0⟩⟩, ⟨2, 1, "c", ⟨0, 0⟩⟩], 50⟩ (some 1)).1.users)
    ∧ ∀ s ∈ ([⟨7, some 1, "a", 2, [⟨0, 0⟩], 0⟩] : List Stroke),
        s ∈ (disconnect ⟨[⟨7, some 1, "a", 2, [⟨0, 0⟩], 0⟩],
          [⟨1, 0, "b", ⟨0, 0⟩⟩, ⟨2, 1, "c", ⟨0, 0⟩⟩], 50⟩ (some 1)).1.strokes :=
  C6_disconnect_preserves_strokes
    ⟨[⟨7, some 1, "a", 2, [⟨0, 0⟩], 0⟩], [⟨1, 0, "b", ⟨0, 0⟩⟩, ⟨2, 1, "c", ⟨0, 0⟩⟩], 50⟩ 1

/-- Claim C7: in the client reconnection controller, the retry delay before
the n-th reconnection attempt is baseDelay times 2 to the (n-1), the attempt
counter is incremented on each failure and never exceeds the fixed maximum
of 10, reaching the cap makes the next failure surface the user-visible
connection error and schedule no further retry (the counter stays at the
cap, so the state is terminal), and a successful open resets the counter
to 0. -/
theorem C7_reconnect_backoff (c : ReconnectController) (n : Nat) :
    (1 ≤ n → n ≤ maxReconnectAttempts → c.reconnectAttempts = n - 1 →
      attemptReconnect c
        = ({ c with reconnectAttempts := n },
           some (baseReconnectDelay * 2 ^ (n - 1))))
    ∧ (c.reconnectAttempts ≤ maxReconnectAttempts →
        (attemptReconnect c).1.reconnectAttempts ≤ maxReconnectAttempts)
    ∧ (maxReconnectAttempts ≤ c.reconnectAttempts →
        attemptReconnect c = ({ c with errorShown := true }, none))
    ∧ (handleOpen c).reconnectAttempts = 0 := by
  refine ⟨?_, ?_, ?_, rfl⟩
  · intro h1 h2 h3
    have hlt : c.reconnectAttempts < maxReconnectAttempts := by
      simp only [maxReconnectAttempts] at h2 ⊢
      omega
    simp only [attemptReconnect, if_pos hlt, Nat.add_sub_cancel]
    rw [h3, Nat.sub_add_cancel h1]
  · intro h
    by_cases hlt : c.reconnectAttempts < maxReconnectAttempts
    · simp only [attemptReconnect, if_pos hlt]
      show c.reconnectAttempts + 1 ≤ maxReconnectAttempts
      omega
    · simp only [attemptReconnect, if_neg hlt]
      exact h
  · intro h
    have hnlt : ¬(c.reconnectAttempts < maxReconnectAttempts) := by omega
    simp only [attemptReconnect, if_neg hnlt]

/-- Claim C7 witness: the third failure is retried after 4000 ms, a failure
at the cap surfaces the terminal error without scheduling a retry, and a
successful open resets the counter. -/
theorem C7_reconnect_backoff_witness :
    attemptReconnect ⟨2, false⟩ = (⟨3, false⟩, some (baseReconnectDelay * 2 ^ (3 - 1)))
    ∧ attemptReconnect ⟨10, false⟩ = (⟨10, true⟩, none)
    ∧ (handleOpen ⟨7, false⟩).reconnectAttempts = 0 :=
  ⟨(C7_reconnect_backoff ⟨2, false⟩ 3).1 (by decide) (by decide) rfl,
   (C7_reconnect_backoff ⟨10, false⟩ 0).2.2.1 (by decide),
   (C7_reconnect_backoff ⟨7, false⟩ 0).2.2.2⟩

/-- Claim C8: a cursor-move message whose sending socket does not resolve to
a registered session is a no-op with no broadcast; from a registered session
it stores the new cursor position in that session's record and broadcasts a
cursor-move event to all sessions except the originator. -/
theorem C8_cursorMove_cases (st : ServerState) (sender : Option Nat)
    (uc : String) (now : Nat) (x y : Int) :
    ((∀ uid, sender = some uid → usersGet st.users uid = none) →
        processMessage st sender uc now (ClientMsg.cursorMove x y) = (st, []))
    ∧ (sender = none →
        processMessage st sender uc now (ClientMsg.cursorMove x y) = (st, []))
    ∧ (∀ uid u0, sender = some uid → usersGet st.users uid = some u0 →
        processMessage st sender uc now (ClientMsg.cursorMove x y)
          = ({ st with users := updateCursorUsers st.users uid ⟨x, y⟩ },
             [(Scope.exceptSender, ServerMsg.cursorMove uid x y u0.color)])
        ∧ usersGet (updateCursorUsers st.users uid ⟨x, y⟩) uid
            = some { u0 with cursor := ⟨x, y⟩ }) := by
  refine ⟨?_, ?_, ?_⟩
  · intro h
    cases sender with
    | none => rfl
    | some uid =>
        have h2 : usersGet st.users uid = none := h uid rfl
        simp [processMessage, h2]
  · intro h
    subst h
    rfl
  · intro uid u0 hs hg
    subst hs
    exact ⟨by simp [processMessage, hg],
           usersGet_updateCursor st.users uid ⟨x, y⟩ u0 hg⟩

/-- Claim C8 witness: at a concrete state holding only session 1, a
cursor-move on behalf of the unknown session 5 is a no-op, and one on behalf
of session 1 stores the cursor and broadcasts to the others. -/
theorem C8_cursorMove_cases_witness :
    processMessage ⟨[], [⟨1, 0, "b", ⟨0, 0⟩⟩], 10⟩ (some 5) "b" 0 (ClientMsg.cursorMove 3 4)
      = (⟨[], [⟨1, 0, "b", ⟨0, 0⟩⟩], 10⟩, [])
    ∧ (processMessage ⟨[], [⟨1, 0, "b", ⟨0, 0⟩⟩], 10⟩ (some 1) "b" 0 (ClientMsg.cursorMove 3 4)
        = (⟨[], updateCursorUsers [⟨1, 0, "b", ⟨0, 0⟩⟩] 1 ⟨3, 4⟩, 10⟩,
           [(Scope.exceptSender, ServerMsg.cursorMove 1 3 4 "b")])
      ∧ usersGet (updateCursorUsers [⟨1, 0, "b", ⟨0, 0⟩⟩] 1 ⟨3, 4⟩) 1
          = some ⟨1, 0, "b", ⟨3, 4⟩⟩) :=
  ⟨(C8_cursorMove_cases ⟨[], [⟨1, 0, "b", ⟨0, 0⟩⟩], 10⟩ (some 5) "b" 0 3 4).1
     (fun uid h => by injection h with h2; subst h2; rfl),
   (C8_cursorMove_cases ⟨[], [⟨1, 0, "b", ⟨0, 0⟩⟩], 10⟩ (some 1) "b" 0 3 4).2.2
     1 ⟨1, 0, "b", ⟨0, 0⟩⟩ rfl rfl⟩

/-- Claim C9: an inbound frame that is unparseable, or parses to an envelope
with an unrecognized type, is dropped by the handler: processing terminates
normally (the handler is a total function), the canvas state and users map
are unchanged, and no broadcast is produced. -/
theorem C9_malformed_dropped (st : ServerState) (sender : Option Nat)
    (uc : String) (now : Nat) (t : String) :
    handleRawMessage st sender uc now Inbound.malformed = (st, [])
    ∧ handleRawMessage st sender uc now (Inbound.unrecognized t) = (st, []) :=
  ⟨rfl, rfl⟩

/-- Claim C10: a draw-continue processed on behalf of session s, naming a
stroke that exists but is owned by a different session, leaves the state
unchanged and emits no broadcast — the ownership check in the handler means
a stroke's point list is only ever extended by its owner. -/
theorem C10_owner_only_extends (st : ServerState) (s : Nat) (uc : String)
    (now : Nat) (sid : Nat) (x y : Int)
    (hex : ∃ t ∈ st.strokes, t.id = sid)
    (hown : ∀ t ∈ st.strokes, t.id = sid → t.userId ≠ some s) :
    processMessage st (some s) uc now (ClientMsg.drawContinue sid x y) = (st, []) := by
  have h : continueStrokes st.strokes (some s) sid ⟨x, y⟩ = none := by
    apply continueStrokes_eq_none
    intro t ht hc
    exact hown t ht hc.2 hc.1
  simp [processMessage, h]

/-- Claim C10 witness: both sessions registered, stroke 100 owned by session
1, draw-continue on behalf of session 2 is a no-op. -/
theorem C10_owner_only_extends_witness :
    (∃ t ∈ ([⟨100, some 1, "a", 2, [⟨0, 0⟩], 0⟩] : List Stroke), t.id = 100)
    ∧ (∀ t ∈ ([⟨100, some 1, "a", 2, [⟨0, 0⟩], 0⟩] : List Stroke),
        t.id = 100 → t.userId ≠ some 2)
    ∧ processMessage
        ⟨[⟨100, some 1, "a", 2, [⟨0, 0⟩], 0⟩],
         [⟨1, 0, "b", ⟨0, 0⟩⟩, ⟨2, 1, "c", ⟨0, 0⟩⟩], 200⟩
        (some 2) "c" 0 (ClientMsg.drawContinue 100 5 5)
      = (⟨[⟨100, some 1, "a", 2, [⟨0, 0⟩], 0⟩],
          [⟨1, 0, "b", ⟨0, 0⟩⟩, ⟨2, 1, "c", ⟨0, 0⟩⟩], 200⟩, []) :=
  ⟨by decide, by decide,
   C10_owner_only_extends
     ⟨[⟨100, some 1, "a", 2, [⟨0, 0⟩], 0⟩],
      [⟨1, 0, "b", ⟨0, 0⟩⟩, ⟨2, 1, "c", ⟨0, 0⟩⟩], 200⟩
     2 "c" 0 100 5 5 (by decide) (by decide)⟩
